import Mathlib

/-!
Shallow embedding of the bookings feature of the Cleaning-App-UI repository,
centred on `src/app/features/bookings/data-access/bookings.store.ts`.

Modelling choices:
* JavaScript strings are Lean `String`s; `toLowerCase` is modelled by the
  character-wise map `jsLower`, `trim` by the structurally recursive
  `jsTrim`, and `String.prototype.includes` by the substring test
  `strContains`.
* Monetary amounts (`totalCad`) are rationals, since JavaScript numbers on
  that field are compared and never used in a way where rounding matters.
* `Date.parse(...) || 0` is an external platform function; the derived-view
  definitions take an arbitrary parameter `dp : String → Int` standing for
  it (unparsable strings map to a default value under `dp`, matching the
  `|| 0` coercion which is absorbed into `dp`).
* Page numbers and page sizes in the store state are natural numbers; the
  separate persistence model (`loadUiState` below) keeps the restored page
  size as a rational, because `JSON.parse` can produce non-integral numbers
  and the restore code (`typeof ui.pageSize === 'number' && ui.pageSize > 0`)
  accepts them.
* Asynchronous adapter calls are modelled by passing the call's outcome as an
  explicit argument; an operation together with its completion callback is a
  single atomic state transition, matching the single-threaded execution
  model of the store.
* The store performs two kinds of side effects besides state updates: HTTP
  calls through `BookingsApi` and `localStorage` writes through
  `saveUiState`. `stepEffects` records, per public operation, which of these
  the source code performs.
-/

/-- Booking status union from `src/app/core/models/booking.model.ts`. -/
inductive BookingStatus where
  | NEW
  | CONFIRMED
  | IN_PROGRESS
  | DONE
  | CANCELLED
deriving DecidableEq, Repr

/-- Booking record from `src/app/core/models/booking.model.ts`. -/
structure Booking where
  id : String
  customerName : String
  address : String
  scheduledAtIso : String
  status : BookingStatus
  totalCad : Rat
  paid : Bool
deriving DecidableEq, Repr

/-- Filter union `'ALL' | 'NEW' | 'CONFIRMED'` from the store file. -/
inductive BookingFilter where
  | ALL
  | NEW
  | CONFIRMED
deriving DecidableEq, Repr

/-- Sort key union `'SCHEDULED_AT' | 'TOTAL'`. -/
inductive SortKey where
  | SCHEDULED_AT
  | TOTAL
deriving DecidableEq, Repr

/-- Sort direction union `'ASC' | 'DESC'`. -/
inductive SortDir where
  | ASC
  | DESC
deriving DecidableEq, Repr

/-- The `BookingsState` record of the store. `pendingDelete` keeps only the
removed booking; the JavaScript `timerId` handle is not part of the pure
model (timer expiry appears as the explicit `opTimerExpire` transition). -/
structure BookingsState where
  filter : BookingFilter
  page : Nat
  pageSize : Nat
  sortKey : SortKey
  sortDir : SortDir
  query : String
  serverItems : List Booking
  localItems : List Booking
  pendingDelete : Option Booking
  loading : Bool
  error : Option String
deriving DecidableEq, Repr

/-- `initialState` from the store. -/
def initialState : BookingsState :=
  { filter := .ALL
    page := 1
    pageSize := 10
    sortKey := .SCHEDULED_AT
    sortDir := .DESC
    query := ""
    serverItems := []
    localItems := []
    pendingDelete := none
    loading := false
    error := none }

/-- Character-wise lower-casing, modelling `String.prototype.toLowerCase`. -/
def jsLower (s : String) : String :=
  ⟨s.data.map Char.toLower⟩

/-- Whitespace class of `String.prototype.trim` (the common cases). -/
def isJsSpace (c : Char) : Bool :=
  c = ' ' ∨ c = '\t' ∨ c = '\n' ∨ c = '\r'

/-- `String.prototype.trim`: strip leading and trailing whitespace. -/
def jsTrim (s : String) : String :=
  ⟨((s.data.dropWhile isJsSpace).reverse.dropWhile isJsSpace).reverse⟩

/-- Substring test on character lists (`needle` occurs contiguously in the
list), modelling `String.prototype.includes`. -/
def charsContain (needle : List Char) : List Char → Bool
  | [] => needle.isEmpty
  | c :: rest => needle.isPrefixOf (c :: rest) || charsContain needle rest

/-- `hay.includes(needle)` for strings. -/
def strContains (hay needle : String) : Bool :=
  charsContain needle.data hay.data

/-- `items` computed: `[...localItems, ...serverItems]`. -/
def items (s : BookingsState) : List Booking :=
  s.localItems ++ s.serverItems

/-- The cross-union comparison `b.status === f` for `f` a filter value. -/
def statusMatches (f : BookingFilter) (st : BookingStatus) : Bool :=
  match f, st with
  | .NEW, .NEW => true
  | .CONFIRMED, .CONFIRMED => true
  | _, _ => false

/-- `visibleItems` computed of the store: status filter, then
case-insensitive substring search of the trimmed query against
`` `${customerName} ${address}` ``. -/
def visibleItems (s : BookingsState) : List Booking :=
  let q := jsLower (jsTrim s.query)
  let all := s.localItems ++ s.serverItems
  let filtered := if s.filter = .ALL then all
    else all.filter (fun b => statusMatches s.filter b.status)
  if q = "" then filtered
  else filtered.filter (fun b =>
    strContains (jsLower (b.customerName ++ " " ++ b.address)) q)

/-- Sort value of a booking under the current sort key: `totalCad` for
`TOTAL`, the parsed timestamp (via the platform stand-in `dp`) for
`SCHEDULED_AT`. -/
def sortVal (dp : String → Int) (key : SortKey) (b : Booking) : Rat :=
  match key with
  | .TOTAL => b.totalCad
  | .SCHEDULED_AT => (dp b.scheduledAtIso : Rat)

/-- `sortedVisibleItems` computed: stable sort of `visibleItems` by the
comparator `dir === 'ASC' ? av - bv : bv - av`. -/
def sortedVisibleItems (dp : String → Int) (s : BookingsState) : List Booking :=
  (visibleItems s).mergeSort (fun a b =>
    match s.sortDir with
    | .ASC => sortVal dp s.sortKey a ≤ sortVal dp s.sortKey b
    | .DESC => sortVal dp s.sortKey b ≤ sortVal dp s.sortKey a)

/-- `Math.ceil(a / b)` for natural `a` and positive natural `b`
(`jsCeilDiv_cast` below proves it equal to the rational ceiling). -/
def jsCeilDiv (a b : Nat) : Nat :=
  (a + b - 1) / b

/-- `totalPages` computed: `Math.max(1, Math.ceil(total / pageSize))`. -/
def totalPages (dp : String → Int) (s : BookingsState) : Nat :=
  max 1 (jsCeilDiv (sortedVisibleItems dp s).length s.pageSize)

/-- `pagedSortedVisibleItems` computed:
`sortedVisibleItems.slice(start, start + size)` with
`start = (page - 1) * size`. -/
def pagedSortedVisibleItems (dp : String → Int) (s : BookingsState) : List Booking :=
  ((sortedVisibleItems dp s).drop ((s.page - 1) * s.pageSize)).take s.pageSize

/-- `counts` computed. -/
def counts (s : BookingsState) : Nat × Nat × Nat :=
  let all := s.localItems ++ s.serverItems
  (all.length,
   (all.filter (fun b => b.status = .NEW)).length,
   (all.filter (fun b => b.status = .CONFIRMED)).length)

/-- Synchronous part of `delete(id)`: look the booking up across both
collections, optimistically remove it from both, clear `error`, and install
it in the pending-delete slot (replacing and cancelling any prior one). -/
def deleteSync (id : String) (s : BookingsState) : BookingsState :=
  match (s.localItems ++ s.serverItems).find? (fun b => b.id = id) with
  | none => s
  | some bk =>
    { s with
      localItems := s.localItems.filter (fun b => ¬ b.id = id)
      serverItems := s.serverItems.filter (fun b => ¬ b.id = id)
      error := none
      pendingDelete := some bk }

/-- `delete(id)` together with the outcome of the adapter call it issues for
server-resident bookings: `apiFail = some msg` means the HTTP delete failed
with message `msg` (the `catchError` branch rolls back to the entry snapshot
`s0`, with `error` set and `pendingDelete` cleared); `apiFail = none` covers
both a successful call and a local-only booking (no call issued). -/
def deleteStep (id : String) (apiFail : Option String) (s : BookingsState) :
    BookingsState :=
  let wasInServer := s.serverItems.any (fun b => b.id = id)
  let found := (s.localItems ++ s.serverItems).any (fun b => b.id = id)
  if found ∧ wasInServer then
    match apiFail with
    | some msg => { s with error := some msg, pendingDelete := none }
    | none => deleteSync id s
  else deleteSync id s

/-- `undoDelete()`: cancel the pending delete, re-insert the booking at the
head of `localItems`, clear the slot, reset to page 1. -/
def undoDelete (s : BookingsState) : BookingsState :=
  match s.pendingDelete with
  | none => s
  | some bk =>
    { s with
      localItems := bk :: s.localItems
      pendingDelete := none
      page := 1 }

/-- `add(booking)`: unconditionally prepend to `localItems`. -/
def add (booking : Booking) (s : BookingsState) : BookingsState :=
  { s with localItems := booking :: s.localItems }

/-- Synchronous (optimistic) part of `confirm(id)`: rewrite the status to
`CONFIRMED` wherever the id occurs, in both collections, clearing `error`. -/
def confirmSync (id : String) (s : BookingsState) : BookingsState :=
  { s with
    localItems := s.localItems.map (fun b =>
      if b.id = id then { b with status := .CONFIRMED } else b)
    serverItems := s.serverItems.map (fun b =>
      if b.id = id then { b with status := .CONFIRMED } else b)
    error := none }

/-- `confirm(id)` with the adapter outcome: the call is only issued when the
id is present in `serverItems` (checked after the optimistic update, as in
the source); on success the returned booking replaces the entry, on failure
only `error` is set (no rollback). -/
def confirmStep (id : String) (res : Except String Booking)
    (s : BookingsState) : BookingsState :=
  let s1 := confirmSync id s
  if s1.serverItems.any (fun b => b.id = id) then
    match res with
    | .ok updated =>
      { s1 with serverItems := s1.serverItems.map (fun b =>
          if b.id = id then updated else b) }
    | .error msg => { s1 with error := some msg }
  else s1

/-- `load()` with the adapter outcome: sets `loading`/clears `error`, then on
success replaces `serverItems` and clears `loading`; on failure sets `error`
and clears `loading`, leaving both item collections untouched. -/
def loadStep (res : Except String (List Booking)) (s : BookingsState) :
    BookingsState :=
  let s1 := { s with loading := true, error := none }
  match res with
  | .ok serverItems => { s1 with serverItems := serverItems, loading := false }
  | .error msg => { s1 with error := some msg, loading := false }

/-- `create(req)` with the adapter outcome. The request body only feeds the
HTTP call, so the state transition depends only on the outcome: on success
the server-returned booking is prepended to `serverItems` and the page reset;
on failure `error` is set. -/
def createStep (res : Except String Booking) (s : BookingsState) :
    BookingsState :=
  let s1 := { s with loading := true, error := none }
  match res with
  | .ok created =>
    { s1 with serverItems := created :: s1.serverItems, loading := false,
              page := 1 }
  | .error msg => { s1 with error := some msg, loading := false }

/-- `setQuery(query)`. -/
def setQuery (query : String) (s : BookingsState) : BookingsState :=
  { s with query := query, page := 1 }

/-- `setFilter(filter)`. -/
def setFilter (filter : BookingFilter) (s : BookingsState) : BookingsState :=
  { s with filter := filter, page := 1 }

/-- `setSort(sortKey)`: same key toggles the direction, a new key selects
`DESC`; always resets to page 1. -/
def setSort (sortKey : SortKey) (s : BookingsState) : BookingsState :=
  { s with
    sortKey := sortKey
    sortDir :=
      if s.sortKey = sortKey then
        match s.sortDir with
        | .ASC => .DESC
        | .DESC => .ASC
      else .DESC
    page := 1 }

/-- `setPageSize(pageSize)`. -/
def setPageSize (pageSize : Nat) (s : BookingsState) : BookingsState :=
  { s with pageSize := pageSize, page := 1 }

/-- `setPage(page)`. -/
def setPage (page : Nat) (s : BookingsState) : BookingsState :=
  { s with page := page }

/-- `nextPage()`: `Math.min(page + 1, totalPages)`. -/
def nextPage (dp : String → Int) (s : BookingsState) : BookingsState :=
  { s with page := min (s.page + 1) (totalPages dp s) }

/-- `prevPage()`: `Math.max(1, page - 1)`. -/
def prevPage (s : BookingsState) : BookingsState :=
  { s with page := max 1 (s.page - 1) }

/-- The public operation alphabet of the store, with adapter outcomes
attached to the operations that issue calls. -/
inductive Op where
  | opLoad (res : Except String (List Booking))
  | opCreate (res : Except String Booking)
  | opConfirm (id : String) (res : Except String Booking)
  | opDelete (id : String) (apiFail : Option String)
  | opUndoDelete
  | opAdd (b : Booking)
  | opSetQuery (q : String)
  | opSetFilter (f : BookingFilter)
  | opSetSort (k : SortKey)
  | opSetPageSize (n : Nat)
  | opSetPage (p : Nat)
  | opNextPage
  | opPrevPage
  | opTimerExpire

/-- One atomic transition of the store. `opTimerExpire` is the 5-second
pending-delete expiry callback, which only clears the slot. -/
def step (dp : String → Int) : Op → BookingsState → BookingsState
  | .opLoad res => loadStep res
  | .opCreate res => createStep res
  | .opConfirm id res => confirmStep id res
  | .opDelete id apiFail => deleteStep id apiFail
  | .opUndoDelete => undoDelete
  | .opAdd b => add b
  | .opSetQuery q => setQuery q
  | .opSetFilter f => setFilter f
  | .opSetSort k => setSort k
  | .opSetPageSize n => setPageSize n
  | .opSetPage p => setPage p
  | .opNextPage => nextPage dp
  | .opPrevPage => prevPage
  | .opTimerExpire => fun s => { s with pendingDelete := none }

/-- Side effects a store operation performs besides the state update. -/
inductive StoreEffect where
  | apiCall
  | persistPrefs
deriving DecidableEq, Repr

/-- Which side effects each operation performs in the source: `load` and
`create` always call the adapter; `confirm` and `delete` call it exactly when
the id is server-resident (and, for `delete`, present at all); the four
preference setters write `localStorage`; everything else — in particular
`add` — performs no effect. -/
def stepEffects : Op → BookingsState → List StoreEffect
  | .opLoad _, _ => [.apiCall]
  | .opCreate _, _ => [.apiCall]
  | .opConfirm id _, s =>
    if (confirmSync id s).serverItems.any (fun b => b.id = id) then [.apiCall]
    else []
  | .opDelete id _, s =>
    if (s.localItems ++ s.serverItems).any (fun b => b.id = id) ∧
       s.serverItems.any (fun b => b.id = id) then [.apiCall]
    else []
  | .opSetQuery _, _ => [.persistPrefs]
  | .opSetFilter _, _ => [.persistPrefs]
  | .opSetSort _, _ => [.persistPrefs]
  | .opSetPageSize _, _ => [.persistPrefs]
  | _, _ => []

/-- States reachable from `initialState` through arbitrary sequences of
public operations, with arbitrary adapter outcomes and arguments. -/
inductive Reachable (dp : String → Int) : BookingsState → Prop
  | init : Reachable dp initialState
  | next (op : Op) {s : BookingsState} :
      Reachable dp s → Reachable dp (step dp op s)

/-- The ids occurring in a list of bookings. -/
def idsOf (l : List Booking) : List String :=
  l.map (fun b => b.id)

/-- The partition property of spec §8 P1: no id occurs in both collections. -/
def localServerDisjoint (s : BookingsState) : Prop :=
  ∀ x ∈ idsOf s.localItems, x ∉ idsOf s.serverItems

/-- Freshness discipline on environment-chosen inputs (spec §3: ids are
assigned by the remote source and never reused): `add` never injects an id
already server-resident, a successful `load` never returns an id that is
local or parked in the pending-delete slot, a successful `create` returns a
fresh id in the same sense, and a successful `confirm` echoes the booking
with the id that was confirmed. -/
def envOk : Op → BookingsState → Prop
  | .opAdd b, s => b.id ∉ idsOf s.serverItems
  | .opLoad (.ok lst), s =>
    (∀ x ∈ idsOf lst, x ∉ idsOf s.localItems) ∧
    (∀ pd, s.pendingDelete = some pd → pd.id ∉ idsOf lst)
  | .opCreate (.ok b), s =>
    b.id ∉ idsOf s.localItems ∧
    (∀ pd, s.pendingDelete = some pd → b.id ≠ pd.id)
  | .opConfirm id (.ok u), _ => u.id = id
  | _, _ => True

/-- States reachable when every environment input obeys `envOk`. -/
inductive ReachableOk (dp : String → Int) : BookingsState → Prop
  | init : ReachableOk dp initialState
  | next (op : Op) {s : BookingsState} :
      ReachableOk dp s → envOk op s → ReachableOk dp (step dp op s)

/-- Inductive strengthening of the partition property: the collections are
id-disjoint and the parked pending-delete id is never server-resident. -/
def StoreInv (s : BookingsState) : Prop :=
  localServerDisjoint s ∧
  ∀ pd, s.pendingDelete = some pd → pd.id ∉ idsOf s.serverItems

theorem mem_idsOf {x : String} {l : List Booking} :
    x ∈ idsOf l ↔ ∃ b ∈ l, b.id = x := by
  simp [idsOf]

theorem idsOf_map_of_preserve {l : List Booking} {f : Booking → Booking}
    (hf : ∀ b ∈ l, (f b).id = b.id) : idsOf (l.map f) = idsOf l := by
  simp only [idsOf, List.map_map]
  exact List.map_congr_left fun b hb => by simp [hf b hb]

theorem idsOf_filter_subset {x : String} {p : Booking → Bool}
    {l : List Booking} (h : x ∈ idsOf (l.filter p)) : x ∈ idsOf l := by
  rcases mem_idsOf.mp h with ⟨b, hb, rfl⟩
  exact mem_idsOf.mpr ⟨b, (List.mem_filter.mp hb).1, rfl⟩

theorem storeInv_step (dp : String → Int) (op : Op) (s : BookingsState)
    (h : StoreInv s) (henv : envOk op s) : StoreInv (step dp op s) := by
  obtain ⟨hdisj, hpd⟩ := h
  cases op with
  | opLoad res =>
    cases res with
    | ok lst =>
      obtain ⟨h1, h2⟩ := henv
      exact ⟨fun x hx hx' => h1 x hx' hx, h2⟩
    | error msg => exact ⟨hdisj, hpd⟩
  | opCreate res =>
    cases res with
    | ok b =>
      obtain ⟨h1, h2⟩ := henv
      constructor
      · intro x hx hx'
        rcases mem_idsOf.mp hx' with ⟨b', hb', rfl⟩
        rcases List.mem_cons.mp hb' with rfl | hmem
        · exact h1 hx
        · exact hdisj _ hx (mem_idsOf.mpr ⟨b', hmem, rfl⟩)
      · intro pd hpdeq hidm
        rcases mem_idsOf.mp hidm with ⟨b', hb', hbid⟩
        rcases List.mem_cons.mp hb' with rfl | hmem
        · exact h2 pd hpdeq hbid
        · exact hpd pd hpdeq (mem_idsOf.mpr ⟨b', hmem, hbid⟩)
    | error msg => exact ⟨hdisj, hpd⟩
  | opConfirm id res =>
    have hlid : idsOf ((confirmSync id s).localItems) = idsOf s.localItems := by
      apply idsOf_map_of_preserve
      intro b _
      dsimp only
      split <;> rfl
    have hsid : idsOf ((confirmSync id s).serverItems) = idsOf s.serverItems := by
      apply idsOf_map_of_preserve
      intro b _
      dsimp only
      split <;> rfl
    have hinv1 : StoreInv (confirmSync id s) := by
      constructor
      · intro x hx hx'
        rw [hlid] at hx
        rw [hsid] at hx'
        exact hdisj x hx hx'
      · intro pd hpdeq
        rw [hsid]
        exact hpd pd hpdeq
    cases res with
    | ok u =>
      show StoreInv (confirmStep id (.ok u) s)
      dsimp only [confirmStep]
      split
      · obtain ⟨hd1, hp1⟩ := hinv1
        have hsid2 : idsOf (((confirmSync id s).serverItems).map
            (fun b => if b.id = id then u else b)) =
            idsOf ((confirmSync id s).serverItems) := by
          apply idsOf_map_of_preserve
          intro b _
          dsimp only
          split
          · next heq => rw [henv, heq]
          · rfl
        constructor
        · intro x hx hx'
          rw [hsid2] at hx'
          exact hd1 x hx hx'
        · intro pd hpdeq
          rw [hsid2]
          exact hp1 pd hpdeq
      · exact hinv1
    | error msg =>
      show StoreInv (confirmStep id (.error msg) s)
      dsimp only [confirmStep]
      split
      · exact ⟨hinv1.1, hinv1.2⟩
      · exact hinv1
  | opDelete id apiFail =>
    have hsync : StoreInv (deleteSync id s) := by
      unfold deleteSync
      split
      · exact ⟨hdisj, hpd⟩
      · next bk hfind =>
        have hbk : bk.id = id := by
          have := List.find?_some hfind
          simpa using this
        constructor
        · intro x hx hx'
          exact hdisj x (idsOf_filter_subset hx) (idsOf_filter_subset hx')
        · intro pd hpdeq hx
          have hpdbk : pd = bk := by
            simpa using hpdeq.symm
          rcases mem_idsOf.mp hx with ⟨b', hb', hbid⟩
          have hb'id : ¬ b'.id = id := by
            have := (List.mem_filter.mp hb').2
            simpa using this
          exact hb'id (by rw [hbid, hpdbk, hbk])
    cases apiFail with
    | some msg =>
      show StoreInv (deleteStep id (some msg) s)
      dsimp only [deleteStep]
      split
      · constructor
        · exact hdisj
        · intro pd hpdeq
          exact Option.noConfusion hpdeq
      · exact hsync
    | none =>
      show StoreInv (deleteStep id none s)
      dsimp only [deleteStep]
      split
      · exact hsync
      · exact hsync
  | opUndoDelete =>
    show StoreInv (undoDelete s)
    unfold undoDelete
    cases hpde : s.pendingDelete with
    | none => exact ⟨hdisj, hpd⟩
    | some bk =>
      constructor
      · intro x hx hx'
        rcases mem_idsOf.mp hx with ⟨b', hb', rfl⟩
        rcases List.mem_cons.mp hb' with rfl | hmem
        · exact hpd b' hpde hx'
        · exact hdisj _ (mem_idsOf.mpr ⟨b', hmem, rfl⟩) hx'
      · intro pd hpdeq
        exact Option.noConfusion hpdeq
  | opAdd b =>
    constructor
    · intro x hx hx'
      rcases mem_idsOf.mp hx with ⟨b', hb', rfl⟩
      rcases List.mem_cons.mp hb' with rfl | hmem
      · exact henv hx'
      · exact hdisj _ (mem_idsOf.mpr ⟨b', hmem, rfl⟩) hx'
    · exact hpd
  | opSetQuery q => exact ⟨hdisj, hpd⟩
  | opSetFilter f => exact ⟨hdisj, hpd⟩
  | opSetSort k => exact ⟨hdisj, hpd⟩
  | opSetPageSize n => exact ⟨hdisj, hpd⟩
  | opSetPage p => exact ⟨hdisj, hpd⟩
  | opNextPage => exact ⟨hdisj, hpd⟩
  | opPrevPage => exact ⟨hdisj, hpd⟩
  | opTimerExpire =>
    constructor
    · exact hdisj
    · intro pd hpdeq
      exact Option.noConfusion hpdeq

theorem storeInv_of_reachableOk (dp : String → Int) (s : BookingsState)
    (h : ReachableOk dp s) : StoreInv s := by
  induction h with
  | init =>
    constructor
    · intro x hx
      simp [initialState, idsOf] at hx
    · intro pd hpdeq
      simp [initialState] at hpdeq
  | next op hr henv ih => exact storeInv_step dp op _ ih henv

/-- Sample bookings for concrete runs. -/
def bkA : Booking :=
  { id := "1", customerName := "Ada", address := "12 Elm St",
    scheduledAtIso := "2026-01-01T10:00:00Z", status := .NEW,
    totalCad := 100, paid := false }

def bkB : Booking :=
  { id := "2", customerName := "Bo", address := "34 Oak Ave",
    scheduledAtIso := "2026-01-02T10:00:00Z", status := .CONFIRMED,
    totalCad := 200, paid := true }

/-- A run violating the partition property: `add` a booking, then a
successful `load` returns the same id from the server. -/
def dupRunState : BookingsState :=
  step (fun _ => 0) (.opLoad (.ok [bkA])) (step (fun _ => 0) (.opAdd bkA) initialState)

/-- C1 counterexample: a state reachable through public operations (an `add`
followed by a successful `load` whose response reuses the added id) in which
the id sets of `localItems` and `serverItems` are not disjoint. -/
theorem partition_invariant_counterexample :
    Reachable (fun _ => 0) dupRunState ∧ ¬ localServerDisjoint dupRunState :=
  ⟨Reachable.next _ (Reachable.next _ Reachable.init),
   fun h => (h "1" (by decide)) (by decide)⟩

/-- C1 (amended): for every state reachable from the initial state through
the store's public operations in which every environment-chosen id is fresh
in the sense of `envOk` (ids assigned only by the remote source and never
reused, per spec §3), the id sets of `localItems` and `serverItems` are
disjoint. -/
theorem partition_invariant (dp : String → Int) (s : BookingsState)
    (h : ReachableOk dp s) : localServerDisjoint s :=
  (storeInv_of_reachableOk dp s h).1

/-- Witness for C1 (amended): a concrete two-step fresh-id run. -/
theorem partition_invariant_witness :
    ReachableOk (fun _ => 0)
      (step (fun _ => 0) (.opLoad (.ok [bkB]))
        (step (fun _ => 0) (.opAdd bkA) initialState)) ∧
    localServerDisjoint
      (step (fun _ => 0) (.opLoad (.ok [bkB]))
        (step (fun _ => 0) (.opAdd bkA) initialState)) := by
  have h1 : envOk (.opAdd bkA) initialState := by
    show bkA.id ∉ idsOf initialState.serverItems
    decide
  have h2 : envOk (.opLoad (.ok [bkB])) (step (fun _ => 0) (.opAdd bkA) initialState) := by
    refine ⟨by decide, ?_⟩
    intro pd hpd
    exact Option.noConfusion hpd
  have hr : ReachableOk (fun _ => 0)
      (step (fun _ => 0) (.opLoad (.ok [bkB]))
        (step (fun _ => 0) (.opAdd bkA) initialState)) :=
    ReachableOk.next _ (ReachableOk.next _ ReachableOk.init h1) h2
  exact ⟨hr, partition_invariant _ _ hr⟩

/-- C2: when `delete(id)` targets a server-resident booking and the adapter
delete fails with message `msg`, the resulting state is exactly the entry
snapshot with `error := msg` and `pendingDelete := none` (the expiry timer is
cancelled in the source; in the model the cleared slot reflects it), so in
particular the id multiset of `items` is unchanged. -/
theorem delete_rollback (id msg : String) (s : BookingsState)
    (h : ∃ b ∈ s.serverItems, b.id = id) :
    deleteStep id (some msg) s =
      { s with error := some msg, pendingDelete := none } ∧
    idsOf (items (deleteStep id (some msg) s)) = idsOf (items s) := by
  rcases h with ⟨b, hb, hbid⟩
  have hws : (s.serverItems.any fun x => decide (x.id = id)) = true :=
    List.any_eq_true.mpr ⟨b, hb, by simp [hbid]⟩
  have hfound : ((s.localItems ++ s.serverItems).any fun x => decide (x.id = id)) = true :=
    List.any_eq_true.mpr ⟨b, List.mem_append.mpr (Or.inr hb), by simp [hbid]⟩
  have heq : deleteStep id (some msg) s =
      { s with error := some msg, pendingDelete := none } := by
    dsimp only [deleteStep]
    split
    · rfl
    · next hc => exact absurd ⟨hfound, hws⟩ hc
  refine ⟨heq, ?_⟩
  rw [heq]
  rfl

/-- Witness for C2 on a concrete server-resident booking. -/
theorem delete_rollback_witness :
    (∃ b ∈ ({ initialState with serverItems := [bkB] } : BookingsState).serverItems,
        b.id = "2") ∧
    deleteStep "2" (some "network error") { initialState with serverItems := [bkB] } =
      { ({ initialState with serverItems := [bkB] } : BookingsState) with
        error := some "network error", pendingDelete := none } := by
  have h : ∃ b ∈ ({ initialState with serverItems := [bkB] } : BookingsState).serverItems,
      b.id = "2" := by decide
  exact ⟨h, (delete_rollback "2" "network error" _ h).1⟩

/-- C3: when `confirm(id)` targets a server-resident booking and the adapter
confirm fails with message `msg`, `error` is set to `msg` and the optimistic
status change is kept: every entry carrying the id, in either collection,
has status `CONFIRMED` in the resulting state. -/
theorem confirm_failure_keeps_status (id msg : String) (s : BookingsState)
    (h : ∃ b ∈ s.serverItems, b.id = id) :
    (confirmStep id (.error msg) s).error = some msg ∧
    (∀ b ∈ (confirmStep id (.error msg) s).serverItems,
        b.id = id → b.status = .CONFIRMED) ∧
    (∀ b ∈ (confirmStep id (.error msg) s).localItems,
        b.id = id → b.status = .CONFIRMED) := by
  rcases h with ⟨b, hb, hbid⟩
  have hany : ((confirmSync id s).serverItems.any fun x => decide (x.id = id)) = true := by
    apply List.any_eq_true.mpr
    refine ⟨if b.id = id then { b with status := .CONFIRMED } else b, ?_, ?_⟩
    · exact List.mem_map.mpr ⟨b, hb, rfl⟩
    · simp [hbid]
  have hstat : ∀ c ∈ (confirmSync id s).serverItems, c.id = id → c.status = .CONFIRMED := by
    intro c hc hcid
    rcases List.mem_map.mp hc with ⟨a, _, rfl⟩
    by_cases ha : a.id = id
    · simp [ha]
    · simp [ha] at hcid ⊢
  have hstatl : ∀ c ∈ (confirmSync id s).localItems, c.id = id → c.status = .CONFIRMED := by
    intro c hc hcid
    rcases List.mem_map.mp hc with ⟨a, _, rfl⟩
    by_cases ha : a.id = id
    · simp [ha]
    · simp [ha] at hcid ⊢
  dsimp only [confirmStep]
  rw [if_pos hany]
  exact ⟨rfl, hstat, hstatl⟩

/-- Witness for C3: confirming a server booking whose confirm call fails. -/
theorem confirm_failure_keeps_status_witness :
    (∃ b ∈ ({ initialState with serverItems := [bkA] } : BookingsState).serverItems,
        b.id = "1") ∧
    (confirmStep "1" (.error "confirm failed")
        { initialState with serverItems := [bkA] }).error = some "confirm failed" ∧
    (∀ b ∈ (confirmStep "1" (.error "confirm failed")
        { initialState with serverItems := [bkA] }).serverItems,
        b.id = "1" → b.status = .CONFIRMED) := by
  have h : ∃ b ∈ ({ initialState with serverItems := [bkA] } : BookingsState).serverItems,
      b.id = "1" := by decide
  have hc := confirm_failure_keeps_status "1" "confirm failed" _ h
  exact ⟨h, hc.1, hc.2.1⟩

/-- C4: for a booking present in either collection, `delete(id)` immediately
followed by `undoDelete()` (before the expiry timer fires and before any
adapter completion, i.e. only the synchronous part of `delete` has run)
re-inserts the very booking record the lookup found — same id, fields and
status — at the head of `localItems` regardless of its prior origin, clears
`pendingDelete`, and resets `page` to 1. -/
theorem undo_round_trip (id : String) (s : BookingsState) (bk : Booking)
    (h : (s.localItems ++ s.serverItems).find? (fun b => b.id = id) = some bk) :
    (undoDelete (deleteSync id s)).localItems.head? = some bk ∧
    bk ∈ items (undoDelete (deleteSync id s)) ∧
    bk ∈ items s ∧
    bk.id = id ∧
    (undoDelete (deleteSync id s)).pendingDelete = none ∧
    (undoDelete (deleteSync id s)).page = 1 := by
  have hmem : bk ∈ s.localItems ++ s.serverItems := List.mem_of_find?_eq_some h
  have hid : bk.id = id := by simpa using List.find?_some h
  have hsync : deleteSync id s =
      { s with
        localItems := s.localItems.filter (fun b => ¬ b.id = id)
        serverItems := s.serverItems.filter (fun b => ¬ b.id = id)
        error := none
        pendingDelete := some bk } := by
    dsimp only [deleteSync]
    rw [h]
  rw [hsync]
  dsimp only [undoDelete]
  exact ⟨rfl, List.mem_append.mpr (Or.inl (List.mem_cons_self _ _)), hmem, hid, rfl, rfl⟩

/-- Witness for C4 on a concrete local booking. -/
theorem undo_round_trip_witness :
    ((({ initialState with localItems := [bkA] } : BookingsState).localItems ++
        ({ initialState with localItems := [bkA] } : BookingsState).serverItems).find?
        (fun b => b.id = "1") = some bkA) ∧
    (undoDelete (deleteSync "1" { initialState with localItems := [bkA] })).localItems.head?
      = some bkA ∧
    (undoDelete (deleteSync "1" { initialState with localItems := [bkA] })).pendingDelete
      = none ∧
    (undoDelete (deleteSync "1" { initialState with localItems := [bkA] })).page = 1 := by
  have h : (({ initialState with localItems := [bkA] } : BookingsState).localItems ++
      ({ initialState with localItems := [bkA] } : BookingsState).serverItems).find?
      (fun b => b.id = "1") = some bkA := by decide
  have hu := undo_round_trip "1" { initialState with localItems := [bkA] } bkA h
  exact ⟨h, hu.1, hu.2.2.2.2.1, hu.2.2.2.2.2⟩

/-- C5: a failed `load()` leaves `loading` false, records the failure message
in `error`, and leaves both item collections (and the rest of the state
other than the two flags it always touches) exactly as they were. -/
theorem load_failure_frame (msg : String) (s : BookingsState) :
    (loadStep (.error msg) s).loading = false ∧
    (loadStep (.error msg) s).error = some msg ∧
    (loadStep (.error msg) s).serverItems = s.serverItems ∧
    (loadStep (.error msg) s).localItems = s.localItems ∧
    (loadStep (.error msg) s).pendingDelete = s.pendingDelete ∧
    (loadStep (.error msg) s).page = s.page ∧
    (loadStep (.error msg) s).pageSize = s.pageSize ∧
    (loadStep (.error msg) s).filter = s.filter ∧
    (loadStep (.error msg) s).query = s.query :=
  ⟨rfl, rfl, rfl, rfl, rfl, rfl, rfl, rfl, rfl⟩

/-- C9: `setSort` with the current key flips the direction and keeps the key;
with a different key it selects that key with direction `DESC`; it always
resets `page` to 1. On a store sorted by `SCHEDULED_AT`, two successive
`setSort TOTAL` calls give `TOTAL`/`DESC` then `TOTAL`/`ASC`. -/
theorem setSort_toggle (s : BookingsState) (k : SortKey) :
    ((setSort k s).page = 1) ∧
    (s.sortKey = k → (setSort k s).sortKey = k ∧
      (setSort k s).sortDir =
        (match s.sortDir with | .ASC => .DESC | .DESC => .ASC)) ∧
    (s.sortKey ≠ k → (setSort k s).sortKey = k ∧ (setSort k s).sortDir = .DESC) ∧
    (s.sortKey = .SCHEDULED_AT →
      (setSort .TOTAL s).sortKey = .TOTAL ∧
      (setSort .TOTAL s).sortDir = .DESC ∧
      (setSort .TOTAL (setSort .TOTAL s)).sortKey = .TOTAL ∧
      (setSort .TOTAL (setSort .TOTAL s)).sortDir = .ASC ∧
      (setSort .TOTAL (setSort .TOTAL s)).page = 1) := by
  refine ⟨rfl, ?_, ?_, ?_⟩
  · intro h
    simp [setSort, h]
  · intro h
    simp [setSort, h]
  · intro h
    simp [setSort, h]

/-- Witness for C9 starting from the initial state. -/
theorem setSort_toggle_witness :
    initialState.sortKey = .SCHEDULED_AT ∧
    (setSort .TOTAL initialState).sortDir = .DESC ∧
    (setSort .TOTAL (setSort .TOTAL initialState)).sortDir = .ASC ∧
    (setSort .TOTAL initialState).page = 1 := by
  have h := setSort_toggle initialState .TOTAL
  have h4 := h.2.2.2 rfl
  exact ⟨rfl, h4.2.1, h4.2.2.2.1, h.1⟩

/-- C10: `add(booking)` unconditionally prepends its argument to
`localItems` — no id-uniqueness check, so this holds even when the id is
already present in either collection — performs no adapter call and no
preference persistence (`stepEffects` is empty), and leaves every other
state field unchanged. -/
theorem add_unguarded_frame (b : Booking) (s : BookingsState) :
    (add b s).localItems = b :: s.localItems ∧
    (add b s).serverItems = s.serverItems ∧
    (add b s).filter = s.filter ∧
    (add b s).page = s.page ∧
    (add b s).pageSize = s.pageSize ∧
    (add b s).sortKey = s.sortKey ∧
    (add b s).sortDir = s.sortDir ∧
    (add b s).query = s.query ∧
    (add b s).pendingDelete = s.pendingDelete ∧
    (add b s).loading = s.loading ∧
    (add b s).error = s.error ∧
    stepEffects (.opAdd b) s = [] :=
  ⟨rfl, rfl, rfl, rfl, rfl, rfl, rfl, rfl, rfl, rfl, rfl, rfl⟩

theorem flatten_chunks {α : Type} (sz : ℕ) :
    ∀ (k : ℕ) (l : List α), l.length ≤ k * sz →
      ((List.range k).map (fun i => (l.drop (i * sz)).take sz)).flatten = l := by
  intro k
  induction k with
  | zero =>
    intro l hl
    rw [Nat.zero_mul] at hl
    have : l = [] := List.eq_nil_of_length_eq_zero (Nat.le_zero.mp hl)
    subst this
    rfl
  | succ k ih =>
    intro l hl
    rw [Nat.succ_mul] at hl
    rw [List.range_succ_eq_map]
    simp only [List.map_cons, List.map_map, List.flatten_cons, Nat.zero_mul,
      List.drop_zero]
    have hfun : ∀ i ∈ List.range k,
        ((fun i => (l.drop (i * sz)).take sz) ∘ Nat.succ) i =
        ((l.drop sz).drop (i * sz)).take sz := by
      intro i _
      simp only [Function.comp_apply]
      rw [List.drop_drop]
      have : Nat.succ i * sz = sz + i * sz := by
        rw [Nat.succ_mul]
        omega
      rw [this]
    rw [List.map_congr_left hfun]
    rw [ih (l.drop sz) (by rw [List.length_drop]; omega)]
    exact List.take_append_drop sz l

theorem le_jsCeilDiv_mul (a b : ℕ) (hb : 0 < b) : a ≤ jsCeilDiv a b * b := by
  have hdm := Nat.div_add_mod (a + b - 1) b
  have hmod : (a + b - 1) % b < b := Nat.mod_lt _ hb
  unfold jsCeilDiv
  rw [Nat.mul_comm]
  omega

theorem jsCeilDiv_cast (a b : ℕ) (hb : 0 < b) :
    (jsCeilDiv a b : ℤ) = ⌈(a : ℚ) / (b : ℚ)⌉ := by
  have hbq : (0 : ℚ) < (b : ℚ) := by exact_mod_cast hb
  rw [eq_comm, Int.ceil_eq_iff]
  constructor
  · rw [lt_div_iff₀ hbq]
    have h1 : jsCeilDiv a b * b + 1 ≤ a + b := by
      have := Nat.div_mul_le_self (a + b - 1) b
      unfold jsCeilDiv
      omega
    have h1q : (jsCeilDiv a b : ℚ) * b + 1 ≤ a + b := by exact_mod_cast h1
    push_cast
    nlinarith [h1q]
  · rw [div_le_iff₀ hbq]
    have h2 : a ≤ jsCeilDiv a b * b := le_jsCeilDiv_mul a b hb
    have h2q : (a : ℚ) ≤ (jsCeilDiv a b : ℚ) * b := by exact_mod_cast h2
    push_cast
    linarith [h2q]

/-- C6: with a positive `pageSize`, `totalPages` is
`max(1, ceil(length(sortedVisibleItems) / pageSize))` (the ceiling taken over
the rationals, as `Math.ceil` does over floats), and concatenating
`pagedSortedVisibleItems` for pages `1..totalPages` (all other state held
fixed) reproduces `sortedVisibleItems` exactly — no duplicate, no missing
element. -/
theorem pagination_coverage (dp : String → Int) (s : BookingsState)
    (h : 0 < s.pageSize) :
    (totalPages dp s : ℤ) =
      max 1 ⌈((sortedVisibleItems dp s).length : ℚ) / (s.pageSize : ℚ)⌉ ∧
    ((List.range (totalPages dp s)).map
        (fun i => pagedSortedVisibleItems dp { s with page := i + 1 })).flatten =
      sortedVisibleItems dp s := by
  constructor
  · unfold totalPages
    rw [Nat.cast_max, jsCeilDiv_cast _ _ h, Nat.cast_one]
  · have hmap : (List.range (totalPages dp s)).map
        (fun i => pagedSortedVisibleItems dp { s with page := i + 1 }) =
        (List.range (totalPages dp s)).map
        (fun i => ((sortedVisibleItems dp s).drop (i * s.pageSize)).take s.pageSize) :=
      List.map_congr_left fun i _ => rfl
    rw [hmap]
    apply flatten_chunks
    calc (sortedVisibleItems dp s).length
        ≤ jsCeilDiv (sortedVisibleItems dp s).length s.pageSize * s.pageSize :=
          le_jsCeilDiv_mul _ _ h
      _ ≤ totalPages dp s * s.pageSize :=
          Nat.mul_le_mul_right _ (le_max_right _ _)

/-- Witness for C6 on a concrete two-item state with page size 1. -/
theorem pagination_coverage_witness :
    0 < ({ initialState with serverItems := [bkA, bkB], pageSize := 1 } :
        BookingsState).pageSize ∧
    ((totalPages (fun _ => 0)
        { initialState with serverItems := [bkA, bkB], pageSize := 1 } : ℤ) =
      max 1 ⌈((sortedVisibleItems (fun _ => 0)
        { initialState with serverItems := [bkA, bkB], pageSize := 1 }).length : ℚ) /
        (({ initialState with serverItems := [bkA, bkB], pageSize := 1 } :
          BookingsState).pageSize : ℚ)⌉ ∧
    ((List.range (totalPages (fun _ => 0)
        { initialState with serverItems := [bkA, bkB], pageSize := 1 })).map
        (fun i => pagedSortedVisibleItems (fun _ => 0)
          { initialState with serverItems := [bkA, bkB], pageSize := 1, page := i + 1 })).flatten =
      sortedVisibleItems (fun _ => 0)
        { initialState with serverItems := [bkA, bkB], pageSize := 1 }) :=
  ⟨Nat.one_pos,
   pagination_coverage (fun _ => 0)
     { initialState with serverItems := [bkA, bkB], pageSize := 1 } Nat.one_pos⟩

/-- The search semantics exactly as the claim words them: the status filter,
then a case-insensitive substring match of the query against the
concatenation of `customerName` and `address` (no separator mentioned), an
empty or whitespace-only query matching every item. -/
def visibleItemsClaim (s : BookingsState) : List Booking :=
  let all := s.localItems ++ s.serverItems
  let filtered := if s.filter = .ALL then all
    else all.filter (fun b => statusMatches s.filter b.status)
  filtered.filter (fun b =>
    jsTrim s.query = "" ||
    strContains (jsLower (b.customerName ++ b.address)) (jsLower s.query))

/-- The search semantics as the code has them: the haystack is
`customerName ++ " " ++ address` (template literal with a space) and the
needle is the trimmed, lower-cased query. -/
def visibleItemsSpecAmended (s : BookingsState) : List Booking :=
  let all := s.localItems ++ s.serverItems
  let filtered := if s.filter = .ALL then all
    else all.filter (fun b => statusMatches s.filter b.status)
  filtered.filter (fun b =>
    jsTrim s.query = "" ||
    strContains (jsLower (b.customerName ++ " " ++ b.address)) (jsLower (jsTrim s.query)))

/-- A booking whose name-address boundary is where a query can span. -/
def bkJo : Booking :=
  { id := "7", customerName := "Jo", address := "hn",
    scheduledAtIso := "2026-01-03T10:00:00Z", status := .NEW,
    totalCad := 50, paid := false }

/-- C7 counterexample: with `customerName = "Jo"`, `address = "hn"` and query
`"ohn"`, the claimed semantics (haystack `"Johhn"`-style concatenation with
no separator) match the booking, but the code's haystack `"Jo hn"` does not:
`visibleItems` differs from the claim's description. -/
theorem search_semantics_counterexample :
    visibleItems { initialState with localItems := [bkJo], query := "ohn" } ≠
    visibleItemsClaim { initialState with localItems := [bkJo], query := "ohn" } := by
  decide

theorem jsLower_eq_empty {t : String} : jsLower t = "" ↔ t = "" := by
  constructor
  · intro h
    have hd : t.data.map Char.toLower = [] := by
      have := String.ext_iff.mp h
      simpa [jsLower] using this
    have : t.data = [] := List.map_eq_nil_iff.mp hd
    exact String.ext_iff.mpr (by simpa using this)
  · intro h
    subst h
    rfl

/-- C7 (amended): `visibleItems` is `items` filtered by the status filter
(pass-through when `ALL`), then filtered by the whitespace-trimmed query as a
case-insensitive substring match against `customerName ++ " " ++ address`
(the two fields joined by a single space); an empty or whitespace-only query
matches every item. -/
theorem search_semantics (s : BookingsState) :
    visibleItems s = visibleItemsSpecAmended s := by
  unfold visibleItems visibleItemsSpecAmended
  by_cases hq : jsTrim s.query = ""
  · have hq' : jsLower (jsTrim s.query) = "" := jsLower_eq_empty.mpr hq
    simp only [hq', hq]
    simp
    intro hc
    exact absurd rfl hc
  · have hq' : ¬ jsLower (jsTrim s.query) = "" := fun hc => hq (jsLower_eq_empty.mp hc)
    rw [if_neg hq']
    apply List.filter_congr
    intro b _
    simp [hq]

/-- JSON values producible by `JSON.parse`. Numbers are rationals: every
JSON number literal denotes a finite decimal, which `ℚ` represents
exactly. -/
inductive JVal where
  | null
  | bool (b : Bool)
  | num (q : Rat)
  | str (s : String)
  | arr (elems : List JVal)
  | obj (fields : List (String × JVal))

/-- Property access `v[k]` on a parsed-JSON value as JavaScript resolves it:
string-keyed data fields exist only on objects (on duplicate keys the later
one wins, as in `JSON.parse`); any other non-null value yields `undefined`
(`none`; built-in methods such as `Array.prototype.filter` compare unequal
to the validated string constants, so `none` is an adequate model). Access
on `null` throws and is handled separately in `loadUiState`. -/
def jsGet (j : JVal) (k : String) : Option JVal :=
  match j with
  | .obj fields => (fields.reverse.find? (fun p => p.1 = k)).map (fun p => p.2)
  | _ => none

/-- What `localStorage.getItem` followed by `JSON.parse` can yield: no
stored value, a stored string `JSON.parse` throws on, or a parsed value. -/
inductive StoredValue where
  | absent
  | unparsable
  | parsed (j : JVal)

/-- The slice of the store state `loadUiState` reads and writes. `pageSize`
is a rational here because the guard
`typeof ui.pageSize === 'number' && ui.pageSize > 0` accepts non-integral
JSON numbers. -/
structure RestoreState where
  filter : BookingFilter
  sortKey : SortKey
  sortDir : SortDir
  pageSize : Rat
  query : String
  page : Nat
deriving DecidableEq, Repr

/-- The UI-preference slice of `initialState` (the in-memory defaults in
effect when the constructor runs `loadUiState`). -/
def defaultRestoreState : RestoreState :=
  { filter := .ALL, sortKey := .SCHEDULED_AT, sortDir := .DESC,
    pageSize := 10, query := "", page := 1 }

/-- `loadUiState` of the store: absent data returns early; unparsable data
is swallowed by the `catch`; `JSON.parse` returning `null` makes the first
property access inside the `try` throw, the `catch` swallows it, and the
update never runs; otherwise each field is validated independently against
its closed set of values (`pageSize`: a positive number; `query`: any
string), falling back to the current in-memory value, and `page` is reset
to 1. -/
def loadUiState (sv : StoredValue) (s : RestoreState) : RestoreState :=
  match sv with
  | .absent => s
  | .unparsable => s
  | .parsed .null => s
  | .parsed j =>
    { filter :=
        match jsGet j "filter" with
        | some (.str v) =>
          if v = "NEW" then .NEW
          else if v = "CONFIRMED" then .CONFIRMED
          else if v = "ALL" then .ALL
          else s.filter
        | _ => s.filter
      sortKey :=
        match jsGet j "sortKey" with
        | some (.str v) =>
          if v = "TOTAL" then .TOTAL
          else if v = "SCHEDULED_AT" then .SCHEDULED_AT
          else s.sortKey
        | _ => s.sortKey
      sortDir :=
        match jsGet j "sortDir" with
        | some (.str v) =>
          if v = "ASC" then .ASC
          else if v = "DESC" then .DESC
          else s.sortDir
        | _ => s.sortDir
      pageSize :=
        match jsGet j "pageSize" with
        | some (.num q) => if 0 < q then q else s.pageSize
        | _ => s.pageSize
      query :=
        match jsGet j "query" with
        | some (.str v) => v
        | _ => s.query
      page := 1 }

/-- The rational 5/2, given in normal form so that kernel evaluation works. -/
def fiveHalves : Rat := ⟨5, 2, by decide, by decide⟩

/-- A stored blob whose `pageSize` is a positive but non-integral number. -/
def halfStored : StoredValue := .parsed (.obj [("pageSize", .num fiveHalves)])

/-- C8 counterexample: restoring `{"pageSize": 2.5}` succeeds and installs
`pageSize = 5/2`, a positive number that is not an integer — the restore
does not guarantee an integral `pageSize`, contrary to the claim. -/
theorem uiRestore_counterexample :
    (loadUiState halfStored defaultRestoreState).pageSize = 5 / 2 ∧
    ¬ ∃ n : ℕ, (loadUiState halfStored defaultRestoreState).pageSize = (n : ℚ) := by
  have h1 : (loadUiState halfStored defaultRestoreState).pageSize = fiveHalves := by
    decide
  have h2 : fiveHalves = 5 / 2 := by
    rw [show fiveHalves = Rat.mk' 5 2 from rfl, Rat.mk'_eq_divInt, Rat.divInt_eq_div]
    norm_num
  refine ⟨h1.trans h2, ?_⟩
  rintro ⟨n, hn⟩
  rw [h1] at hn
  have hd := congrArg Rat.den hn
  rw [Rat.den_natCast] at hd
  exact absurd hd (by decide)

/-- The stored blob holds, under `key`, a string satisfying `ok`. -/
def storedStrField (sv : StoredValue) (key : String) (ok : String → Prop) : Prop :=
  ∃ j v, sv = .parsed j ∧ jsGet j key = some (.str v) ∧ ok v

/-- The stored blob holds, under `key`, a positive number. -/
def storedPosNumField (sv : StoredValue) (key : String) : Prop :=
  ∃ j q, sv = .parsed j ∧ jsGet j key = some (.num q) ∧ 0 < q

/-- C8 (amended): restoring preferences from any stored value never fails
(`loadUiState` is a total function); each field is validated individually,
taking the stored value only when it passes its own guard and falling back
to the in-memory default otherwise; the restored `filter`/`sortKey`/`sortDir`
are members of their closed enumerations (immediate from their types); and
the restored `pageSize` is always a positive number — though not necessarily
an integer, as `uiRestore_counterexample` shows. -/
theorem uiRestore_safe (sv : StoredValue) (s : RestoreState)
    (h : 0 < s.pageSize) :
    0 < (loadUiState sv s).pageSize ∧
    ((loadUiState sv s).filter = s.filter ∨
      storedStrField sv "filter" (fun v => v = "NEW" ∨ v = "CONFIRMED" ∨ v = "ALL")) ∧
    ((loadUiState sv s).sortKey = s.sortKey ∨
      storedStrField sv "sortKey" (fun v => v = "TOTAL" ∨ v = "SCHEDULED_AT")) ∧
    ((loadUiState sv s).sortDir = s.sortDir ∨
      storedStrField sv "sortDir" (fun v => v = "ASC" ∨ v = "DESC")) ∧
    ((loadUiState sv s).pageSize = s.pageSize ∨ storedPosNumField sv "pageSize") ∧
    ((loadUiState sv s).query = s.query ∨
      storedStrField sv "query" (fun _ => True)) := by
  cases sv with
  | absent => exact ⟨h, Or.inl rfl, Or.inl rfl, Or.inl rfl, Or.inl rfl, Or.inl rfl⟩
  | unparsable => exact ⟨h, Or.inl rfl, Or.inl rfl, Or.inl rfl, Or.inl rfl, Or.inl rfl⟩
  | parsed j =>
    by_cases hnull : j = .null
    · subst hnull
      exact ⟨h, Or.inl rfl, Or.inl rfl, Or.inl rfl, Or.inl rfl, Or.inl rfl⟩
    · have hredFil : (loadUiState (.parsed j) s).filter =
          (match jsGet j "filter" with
           | some (.str v) =>
             if v = "NEW" then .NEW
             else if v = "CONFIRMED" then .CONFIRMED
             else if v = "ALL" then .ALL
             else s.filter
           | _ => s.filter) := by
        cases j with
        | null => exact absurd rfl hnull
        | bool b => rfl
        | num q => rfl
        | str v => rfl
        | arr l => rfl
        | obj fields => rfl
      have hredKey : (loadUiState (.parsed j) s).sortKey =
          (match jsGet j "sortKey" with
           | some (.str v) =>
             if v = "TOTAL" then .TOTAL
             else if v = "SCHEDULED_AT" then .SCHEDULED_AT
             else s.sortKey
           | _ => s.sortKey) := by
        cases j with
        | null => exact absurd rfl hnull
        | bool b => rfl
        | num q => rfl
        | str v => rfl
        | arr l => rfl
        | obj fields => rfl
      have hredDir : (loadUiState (.parsed j) s).sortDir =
          (match jsGet j "sortDir" with
           | some (.str v) =>
             if v = "ASC" then .ASC
             else if v = "DESC" then .DESC
             else s.sortDir
           | _ => s.sortDir) := by
        cases j with
        | null => exact absurd rfl hnull
        | bool b => rfl
        | num q => rfl
        | str v => rfl
        | arr l => rfl
        | obj fields => rfl
      have hredSize : (loadUiState (.parsed j) s).pageSize =
          (match jsGet j "pageSize" with
           | some (.num q) => if 0 < q then q else s.pageSize
           | _ => s.pageSize) := by
        cases j with
        | null => exact absurd rfl hnull
        | bool b => rfl
        | num q => rfl
        | str v => rfl
        | arr l => rfl
        | obj fields => rfl
      have hredQry : (loadUiState (.parsed j) s).query =
          (match jsGet j "query" with
           | some (.str v) => v
           | _ => s.query) := by
        cases j with
        | null => exact absurd rfl hnull
        | bool b => rfl
        | num q => rfl
        | str v => rfl
        | arr l => rfl
        | obj fields => rfl
      refine ⟨?_, ?_, ?_, ?_, ?_, ?_⟩
      · rw [hredSize]
        rcases hget : jsGet j "pageSize" with _ | jv
        · exact h
        · cases jv with
          | num q =>
            by_cases hq : 0 < q
            · simpa [if_pos hq] using hq
            · simpa [if_neg hq] using h
          | null => exact h
          | bool b => exact h
          | str v => exact h
          | arr l => exact h
          | obj f2 => exact h
      · rcases hget : jsGet j "filter" with _ | jv
        · left
          rw [hredFil, hget]
        · cases jv with
          | str v =>
            by_cases hN : v = "NEW"
            · exact Or.inr ⟨j, v, rfl, hget, Or.inl hN⟩
            · by_cases hC : v = "CONFIRMED"
              · exact Or.inr ⟨j, v, rfl, hget, Or.inr (Or.inl hC)⟩
              · by_cases hA : v = "ALL"
                · exact Or.inr ⟨j, v, rfl, hget, Or.inr (Or.inr hA)⟩
                · left
                  rw [hredFil, hget]
                  simp [hN, hC, hA]
          | null => left; rw [hredFil, hget]
          | bool b => left; rw [hredFil, hget]
          | num q => left; rw [hredFil, hget]
          | arr l => left; rw [hredFil, hget]
          | obj f2 => left; rw [hredFil, hget]
      · rcases hget : jsGet j "sortKey" with _ | jv
        · left
          rw [hredKey, hget]
        · cases jv with
          | str v =>
            by_cases hT : v = "TOTAL"
            · exact Or.inr ⟨j, v, rfl, hget, Or.inl hT⟩
            · by_cases hS : v = "SCHEDULED_AT"
              · exact Or.inr ⟨j, v, rfl, hget, Or.inr hS⟩
              · left
                rw [hredKey, hget]
                simp [hT, hS]
          | null => left; rw [hredKey, hget]
          | bool b => left; rw [hredKey, hget]
          | num q => left; rw [hredKey, hget]
          | arr l => left; rw [hredKey, hget]
          | obj f2 => left; rw [hredKey, hget]
      · rcases hget : jsGet j "sortDir" with _ | jv
        · left
          rw [hredDir, hget]
        · cases jv with
          | str v =>
            by_cases hA : v = "ASC"
            · exact Or.inr ⟨j, v, rfl, hget, Or.inl hA⟩
            · by_cases hD : v = "DESC"
              · exact Or.inr ⟨j, v, rfl, hget, Or.inr hD⟩
              · left
                rw [hredDir, hget]
                simp [hA, hD]
          | null => left; rw [hredDir, hget]
          | bool b => left; rw [hredDir, hget]
          | num q => left; rw [hredDir, hget]
          | arr l => left; rw [hredDir, hget]
          | obj f2 => left; rw [hredDir, hget]
      · rcases hget : jsGet j "pageSize" with _ | jv
        · left
          rw [hredSize, hget]
        · cases jv with
          | num q =>
            by_cases hq : 0 < q
            · exact Or.inr ⟨j, q, rfl, hget, hq⟩
            · left
              rw [hredSize, hget]
              simp [if_neg hq]
          | null => left; rw [hredSize, hget]
          | bool b => left; rw [hredSize, hget]
          | str v => left; rw [hredSize, hget]
          | arr l => left; rw [hredSize, hget]
          | obj f2 => left; rw [hredSize, hget]
      · rcases hget : jsGet j "query" with _ | jv
        · left
          rw [hredQry, hget]
        · cases jv with
          | str v => exact Or.inr ⟨j, v, rfl, hget, trivial⟩
          | null => left; rw [hredQry, hget]
          | bool b => left; rw [hredQry, hget]
          | num q => left; rw [hredQry, hget]
          | arr l => left; rw [hredQry, hget]
          | obj f2 => left; rw [hredQry, hget]

/-- A well-formed stored blob for the C8 witness. -/
def okStored : StoredValue :=
  .parsed (.obj [("filter", .str "NEW"), ("pageSize", .num 25)])

/-- Witness for C8 (amended) on a concrete stored blob. -/
theorem uiRestore_safe_witness :
    0 < defaultRestoreState.pageSize ∧
    (0 < (loadUiState okStored defaultRestoreState).pageSize ∧
    ((loadUiState okStored defaultRestoreState).filter = defaultRestoreState.filter ∨
      storedStrField okStored "filter"
        (fun v => v = "NEW" ∨ v = "CONFIRMED" ∨ v = "ALL")) ∧
    ((loadUiState okStored defaultRestoreState).sortKey = defaultRestoreState.sortKey ∨
      storedStrField okStored "sortKey" (fun v => v = "TOTAL" ∨ v = "SCHEDULED_AT")) ∧
    ((loadUiState okStored defaultRestoreState).sortDir = defaultRestoreState.sortDir ∨
      storedStrField okStored "sortDir" (fun v => v = "ASC" ∨ v = "DESC")) ∧
    ((loadUiState okStored defaultRestoreState).pageSize = defaultRestoreState.pageSize ∨
      storedPosNumField okStored "pageSize") ∧
    ((loadUiState okStored defaultRestoreState).query = defaultRestoreState.query ∨
      storedStrField okStored "query" (fun _ => True))) :=
  ⟨by decide, uiRestore_safe okStored defaultRestoreState (by decide)⟩
